import Mathlib

/-!
Verification development for `.github/scripts/gemini-code-review.py`:
a CI helper that lists changed files, sends each file's content to a
text-generation HTTP endpoint, and writes a markdown report.

The Python source is shallowly embedded below.  Python strings are
modelled as Lean `String` (a list of characters); the external world
(git subprocess, filesystem reads, HTTP responses) is passed in as an
explicit environment, and the side effects of `main` are recorded as a
trace of `Effect` values in program order.
-/

namespace GeminiReview

/-! ## Python string-operation model -/

/-- Characters removed by Python's `str.strip()` (whitespace). -/
def isSpaceChar (c : Char) : Bool :=
  c == ' ' || c == '\t' || c == '\n' || c == '\r' || c == '\x0b' || c == '\x0c'

/-- Python `str.strip()`: drop leading and trailing whitespace. -/
def pyStrip (s : String) : String :=
  ⟨((s.data.dropWhile isSpaceChar).reverse.dropWhile isSpaceChar).reverse⟩

/-- Python `str.upper()` (ASCII model, matching the literal keywords used). -/
def pyUpper (s : String) : String :=
  ⟨s.data.map Char.toUpper⟩

/-- Python slice `s[:n]`: the first `n` characters. -/
def pySlice (s : String) (n : Nat) : String :=
  ⟨s.data.take n⟩

/-- Does `needle` occur as a leading block of `hay`? -/
def matchesAt (needle : List Char) : List Char → Bool
  | [] => needle.isEmpty
  | c :: t =>
    match needle with
    | [] => true
    | a :: as => a == c && matchesAt as t

/-- Does `needle` occur contiguously anywhere in `hay`? -/
def containsSeq (needle : List Char) : List Char → Bool
  | [] => needle.isEmpty
  | c :: t => matchesAt needle (c :: t) || containsSeq needle t

/-- Python `needle in hay` for strings: contiguous substring test. -/
def strContains (hay needle : String) : Bool :=
  containsSeq needle.data hay.data

/-- Python `s.endswith(suf)`. -/
def pyEndsWith (s suf : String) : Bool :=
  matchesAt suf.data.reverse s.data.reverse

/-- Python `s.split(c)` for a one-character separator, on character lists. -/
def splitOnChar (c : Char) : List Char → List (List Char)
  | [] => [[]]
  | x :: xs =>
    if x == c then [] :: splitOnChar c xs
    else
      match splitOnChar c xs with
      | [] => [[x]]
      | y :: ys => (x :: y) :: ys

/-- Python `s.split('\n')`. -/
def pySplitLines (s : String) : List String :=
  (splitOnChar '\n' s.data).map (fun l => ⟨l⟩)

/-! ## External-world model -/

/-- Outcome of the `git diff` subprocess call in `get_changed_files`. -/
inductive GitOutcome where
  | ok (stdout : String)
  | err (stderr : String)
  | exn (msg : String)

/-- One generated candidate from the Gemini response body; its `text` models
`candidate['content']['parts'][0]['text']`. -/
structure Candidate where
  text : String
deriving DecidableEq

/-- An HTTP response as observed by `call_gemini_api`: the status code, the
raw body text, and the parsed `candidates` list (a missing `candidates`
key is modelled as the empty list, which the code treats identically). -/
structure GeminiHttpResponse where
  status_code : Nat
  text : String
  candidates : List Candidate
deriving DecidableEq

/-- Outcome of the `requests.post` call: a response, or a raised exception
(network failure, timeout, malformed JSON) caught by the `except` block. -/
inductive NetOutcome where
  | ok (resp : GeminiHttpResponse)
  | exn (msg : String)

/-- The environment a run of `main` observes: git output, file existence,
file reads (`read_file_content` returns `""` on any read failure), and the
network outcome of the per-file API call. -/
structure Env where
  gitResult : GitOutcome
  fileExists : String → Bool
  readResult : String → String
  netOutcome : String → NetOutcome

/-- Side effects of a run, recorded in program order. -/
inductive Effect where
  | readFile (path : String)
  | httpCall (path : String) (prompt : String)
  | mkdirOutput
  | writeOutput (content : String)
deriving DecidableEq

/-! ## Embedding of the Python source -/

/-- The fixed extension allow-list from `get_changed_files`. -/
def codeExtensions : List String :=
  [".ts", ".tsx", ".js", ".jsx", ".py", ".java", ".cpp", ".c", ".h", ".hpp"]

/-- Embedding of `file.endswith(('.ts', ...))` from `get_changed_files`. -/
def hasCodeExtension (f : String) : Bool :=
  codeExtensions.any (fun ext => pyEndsWith f ext)

/-- Embedding of `get_changed_files`: on git success, split stdout into lines, strip each,
drop empties, and keep only allow-listed extensions; on failure, `[]`. -/
def get_changed_files : GitOutcome → List String
  | GitOutcome.ok out =>
      (((pySplitLines out).map pyStrip).filter (fun s => !(s == ""))).filter
        hasCodeExtension
  | GitOutcome.err _ => []
  | GitOutcome.exn _ => []

/-- Template text of the review prompt before the interpolated file path. -/
def promptPre : String :=
  "\nYou are an expert code reviewer. Analyze the following code file and provide constructive feedback.\n\nFile: "

/-- Template text between the file path and the truncated content. -/
def promptMid : String :=
  "\nContent:\n"

/-- Template text after the truncated content, starting with the literal
truncation marker. -/
def promptPost : String :=
  "... (truncated if longer)\n\nPlease provide:\n1. **Overall Assessment**: Brief summary of code quality\n2. **Strengths**: What the code does well\n3. **Issues**: Specific problems or improvements needed\n4. **Security Concerns**: Any security vulnerabilities\n5. **Best Practices**: Suggestions for following coding best practices\n6. **Severity**: Rate as LOW/MEDIUM/HIGH/CRITICAL\n\nFormat your response in clear sections with emojis for readability.\nBe specific and actionable in your feedback.\n"

/-- The f-string prompt of `analyze_file_with_gemini`, embedding the file
path and `content[:4000]`. -/
def buildPrompt (file_path content : String) : String :=
  promptPre ++ file_path ++ promptMid ++ pySlice content 4000 ++ promptPost

/-- Response handling of `call_gemini_api` (the pure part, applied to the
outcome of the POST): first candidate's text on a 200 with candidates, a
placeholder on a 200 without, an `API Error` string on any other status, and
an `Error calling` string when an exception was caught. -/
def call_gemini_api : NetOutcome → String
  | NetOutcome.ok r =>
      if r.status_code = 200 then
        match r.candidates with
        | [] => "No response generated from Gemini API"
        | c :: _ => c.text
      else "API Error: " ++ toString r.status_code ++ " - " ++ r.text
  | NetOutcome.exn e => "Error calling Gemini API: " ++ e

/-- The per-file result dictionary built by `analyze_file_with_gemini`. -/
structure ReviewResult where
  file : String
  analysis : String
  severity : String
deriving DecidableEq

/-- Embedding of `analyze_file_with_gemini`: build the prompt, call the API, and package
the result with the constant default severity. -/
def analyze_file_with_gemini (file_path content : String) (net : NetOutcome) :
    ReviewResult :=
  { file := file_path
    analysis := call_gemini_api net
    severity := "MEDIUM" }

/-- The lexical scan of `generate_overall_summary`:
`"HIGH" in text.upper() or "CRITICAL" in text.upper()`. -/
def hasHighOrCritical (s : String) : Bool :=
  strContains (pyUpper s) "HIGH" || strContains (pyUpper s) "CRITICAL"

/-- The severity icon chosen for a file's summary line. -/
def severityIcon (text : String) : String :=
  if hasHighOrCritical text then "🔴"
  else if strContains (pyUpper text) "MEDIUM" then "🟡"
  else "🟢"

/-- Embedding of `high_priority` from `generate_overall_summary`. -/
def highPriorityCount (analyses : List ReviewResult) : Nat :=
  analyses.countP (fun a => hasHighOrCritical a.analysis)

/-- The bullet lines appended for one file: take the first three lines of the
analysis text, and for each non-blank one append `- <stripped line>`. -/
def bulletLines (text : String) : String :=
  ((pySplitLines text).take 3).foldl
    (fun acc line => if pyStrip line = "" then acc
                     else acc ++ "- " ++ pyStrip line ++ "\n") ""

/-- One file's block in the summary: the labeled icon line, the bullets, and
a blank line. -/
def fileSummaryBlock (a : ReviewResult) : String :=
  "**" ++ severityIcon a.analysis ++ " " ++ a.file ++ "**\n"
    ++ bulletLines a.analysis ++ "\n"

/-- Header of the summary, with the interpolated counts. -/
def summaryHeader (total high : Nat) : String :=
  "## 📋 Code Review Summary\n\n**Files Analyzed**: " ++ toString total
    ++ "\n**High Priority Issues**: " ++ toString high
    ++ "\n\n### 🔍 Analysis Overview\n\n"

/-- Embedding of `generate_overall_summary`: the header followed by one block per file,
accumulated by string concatenation as in the Python loop. -/
def generate_overall_summary (analyses : List ReviewResult) : String :=
  analyses.foldl (fun acc a => acc ++ fileSummaryBlock a)
    (summaryHeader analyses.length (highPriorityCount analyses))

/-- The per-file body of the loop in `main`: skip a missing file, skip a file
whose read produced `""`, otherwise analyze it. -/
def processFile (env : Env) (fp : String) : Option ReviewResult :=
  if env.fileExists fp then
    if env.readResult fp = "" then none
    else some (analyze_file_with_gemini fp (env.readResult fp) (env.netOutcome fp))
  else none

/-- The effects of the per-file loop body for one file. -/
def fileEffects (env : Env) (fp : String) : List Effect :=
  if env.fileExists fp then
    if env.readResult fp = "" then [Effect.readFile fp]
    else [Effect.readFile fp,
          Effect.httpCall fp (buildPrompt fp (env.readResult fp))]
  else []

/-- The `analyses` list accumulated by the loop in `main`. -/
def mainAnalyses (env : Env) : List ReviewResult :=
  (get_changed_files env.gitResult).filterMap (processFile env)

/-- One file's full section in the report body. -/
def detailSection (a : ReviewResult) : String :=
  "## 📄 " ++ a.file ++ "\n\n" ++ a.analysis ++ "\n\n---\n\n"

/-- The fixed trailing attribution line of the report. -/
def attributionLine : String :=
  "*This review was generated by Google Gemini AI using advanced code analysis.*"

/-- Embedding of `review_output` as assembled by `main` for a non-empty changed-file list:
title, analyzed count, then (when any file was analyzed) the overall summary,
a separator and one detailed section per file, then the attribution line. -/
def reportDoc (analyses : List ReviewResult) : String :=
  "## 🤖 AI Code Review Results (Gemini)\n\n**Analyzed "
    ++ toString analyses.length ++ " files**\n\n"
    ++ (if analyses = [] then ""
        else generate_overall_summary analyses ++ "---\n\n"
          ++ analyses.foldl (fun acc a => acc ++ detailSection a) "")
    ++ attributionLine

/-- The fixed document written when no code files changed. -/
def noChangedFilesDoc : String :=
  "## 🤖 AI Code Review Results\n\nℹ️ **No code files were changed in this pull request.**\n\nThe AI code review found no files to analyze."

/-- The effect trace of `main` (after the API-key check): with no changed
files, write the fixed document and stop; otherwise run the per-file loop,
create the output directory, and write the assembled report. -/
def runMain (env : Env) : List Effect :=
  let changed := get_changed_files env.gitResult
  if changed = [] then [Effect.writeOutput noChangedFilesDoc]
  else
    (changed.map (fileEffects env)).flatten
      ++ [Effect.mkdirOutput, Effect.writeOutput (reportDoc (mainAnalyses env))]

/-! ## Basic lemmas about the string model -/

theorem str_data_append (s t : String) : (s ++ t).data = s.data ++ t.data := by
  cases s
  cases t
  rfl

theorem matchesAt_iff (n h : List Char) : matchesAt n h = true ↔ n <+: h := by
  induction h generalizing n with
  | nil =>
    cases n with
    | nil => simp [matchesAt]
    | cons a as => simp [matchesAt]
  | cons c t ih =>
    cases n with
    | nil => simp [matchesAt]
    | cons a as => simp [matchesAt, List.cons_prefix_cons, ih, and_comm]

theorem containsSeq_iff (n h : List Char) : containsSeq n h = true ↔ n <:+: h := by
  induction h with
  | nil =>
    simp [containsSeq, List.isEmpty_iff]
  | cons c t ih =>
    simp [containsSeq, Bool.or_eq_true, matchesAt_iff, ih, List.infix_cons_iff]

theorem strContains_iff (hay needle : String) :
    strContains hay needle = true ↔ needle.data <:+: hay.data :=
  containsSeq_iff needle.data hay.data

theorem pyEndsWith_iff (s suf : String) :
    pyEndsWith s suf = true ↔ suf.data <:+ s.data := by
  rw [pyEndsWith, matchesAt_iff, List.reverse_prefix]

theorem pySlice_isPre (s : String) (n : Nat) : (pySlice s n).data <+: s.data :=
  ⟨s.data.drop n, List.take_append_drop n s.data⟩

theorem pySlice_length (s : String) (n : Nat) :
    (pySlice s n).length = min n s.length := by
  cases s with
  | mk d => simp [pySlice, String.length, List.length_take]

theorem isInfix_of_isPre {l₁ l₂ : List Char} (h : l₁ <+: l₂) : l₁ <:+: l₂ := by
  obtain ⟨t, ht⟩ := h
  exact ⟨[], t, by simpa using ht⟩

theorem exists_block_of_infix_map {f : Char → Char} {l m : List Char}
    (h : l <:+: m.map f) : ∃ w, w <:+: m ∧ w.map f = l := by
  obtain ⟨s, t, hst⟩ := h
  refine ⟨(m.drop s.length).take l.length,
    ⟨m.take s.length, (m.drop s.length).drop l.length, ?_⟩, ?_⟩
  · rw [List.append_assoc, List.take_append_drop, List.take_append_drop]
  · rw [List.map_take, List.map_drop, ← hst, List.append_assoc,
      List.drop_left, List.take_left]

/-! ## Spec-level predicates (from the specification's wording) -/

/-- Spec-level case-insensitive substring containment: some contiguous block
of `hay` equals `needle` up to character case. -/
def SpecContainsCI (hay needle : String) : Prop :=
  ∃ w : List Char, w <:+: hay.data ∧ w.map Char.toUpper = needle.data.map Char.toUpper

theorem strContains_upper_iff (s needle : String)
    (hup : needle.data.map Char.toUpper = needle.data) :
    strContains (pyUpper s) needle = true ↔ SpecContainsCI s needle := by
  rw [strContains_iff]
  constructor
  · intro h
    obtain ⟨w, hw, hwm⟩ := exists_block_of_infix_map (l := needle.data) (m := s.data)
      (by simpa [pyUpper] using h)
    exact ⟨w, hw, by rw [hwm, hup]⟩
  · rintro ⟨w, hw, hwm⟩
    have hmap : w.map Char.toUpper <:+: s.data.map Char.toUpper :=
      List.IsInfix.map Char.toUpper hw
    rw [hwm, hup] at hmap
    simpa [pyUpper] using hmap

/-- Spec-level high-priority test: the text contains `"HIGH"` or `"CRITICAL"`
case-insensitively. -/
def SpecHigh (s : String) : Prop :=
  SpecContainsCI s "HIGH" ∨ SpecContainsCI s "CRITICAL"

/-- Spec-level medium test: the text contains `"MEDIUM"` case-insensitively. -/
def SpecMedium (s : String) : Prop :=
  SpecContainsCI s "MEDIUM"

theorem hasHighOrCritical_iff (s : String) :
    hasHighOrCritical s = true ↔ SpecHigh s := by
  simp only [hasHighOrCritical, Bool.or_eq_true, SpecHigh,
    strContains_upper_iff s "HIGH" (by decide),
    strContains_upper_iff s "CRITICAL" (by decide)]

theorem strContains_medium_iff (s : String) :
    strContains (pyUpper s) "MEDIUM" = true ↔ SpecMedium s :=
  strContains_upper_iff s "MEDIUM" (by decide)

/-- Spec-level allow-list test: the path ends in one of the fixed extensions. -/
def HasAllowedExt (f : String) : Prop :=
  ∃ ext ∈ codeExtensions, ext.data <:+ f.data

theorem hasCodeExtension_iff (f : String) :
    hasCodeExtension f = true ↔ HasAllowedExt f := by
  simp [hasCodeExtension, HasAllowedExt, List.any_eq_true, pyEndsWith_iff]

instance instDecHasAllowedExt (f : String) : Decidable (HasAllowedExt f) :=
  decidable_of_iff _ (hasCodeExtension_iff f)

theorem severityIcon_cases (s : String) :
    (severityIcon s = "🔴" ↔ SpecHigh s)
    ∧ (severityIcon s = "🟡" ↔ (¬ SpecHigh s ∧ SpecMedium s))
    ∧ (severityIcon s = "🟢" ↔ (¬ SpecHigh s ∧ ¬ SpecMedium s)) := by
  simp only [severityIcon]
  by_cases h1 : hasHighOrCritical s = true
  · rw [if_pos h1]
    have hs : SpecHigh s := (hasHighOrCritical_iff s).mp h1
    exact ⟨⟨fun _ => hs, fun _ => rfl⟩,
      ⟨fun he => absurd he (by decide), fun hc => absurd hs hc.1⟩,
      ⟨fun he => absurd he (by decide), fun hc => absurd hs hc.1⟩⟩
  · rw [if_neg h1]
    have hns : ¬ SpecHigh s := fun hsp => h1 ((hasHighOrCritical_iff s).mpr hsp)
    by_cases h2 : strContains (pyUpper s) "MEDIUM" = true
    · rw [if_pos h2]
      have hm : SpecMedium s := (strContains_medium_iff s).mp h2
      exact ⟨⟨fun he => absurd he (by decide), fun hsp => absurd hsp hns⟩,
        ⟨fun _ => ⟨hns, hm⟩, fun _ => rfl⟩,
        ⟨fun he => absurd he (by decide), fun hc => absurd hm hc.2⟩⟩
    · rw [if_neg h2]
      have hnm : ¬ SpecMedium s := fun hmp => h2 ((strContains_medium_iff s).mpr hmp)
      exact ⟨⟨fun he => absurd he (by decide), fun hsp => absurd hsp hns⟩,
        ⟨fun he => absurd he (by decide), fun hc => absurd hc.2 hnm⟩,
        ⟨fun _ => ⟨hns, hnm⟩, fun _ => rfl⟩⟩

/-! ## Lemmas about string accumulation and the report -/

theorem foldl_append_init_isPre {α : Type} (sec : α → String) :
    ∀ (l : List α) (init : String),
      init.data <+: (l.foldl (fun acc x => acc ++ sec x) init).data := by
  intro l
  induction l with
  | nil => intro init; exact List.prefix_rfl
  | cons x xs ih =>
    intro init
    rw [List.foldl_cons]
    have h1 : init.data <+: (init ++ sec x).data := by
      rw [str_data_append]; exact List.prefix_append _ _
    exact h1.trans (ih (init ++ sec x))

theorem foldl_append_mem_isInfix {α : Type} (sec : α → String) :
    ∀ (l : List α) (init : String) (a : α), a ∈ l →
      (sec a).data <:+: (l.foldl (fun acc x => acc ++ sec x) init).data := by
  intro l
  induction l with
  | nil => intro init a ha; exact absurd ha (List.not_mem_nil a)
  | cons x xs ih =>
    intro init a ha
    rw [List.foldl_cons]
    rcases List.mem_cons.mp ha with h | h
    · subst h
      have h1 : (sec a).data <:+: (init ++ sec a).data := by
        rw [str_data_append]; exact ⟨init.data, [], by simp⟩
      have h2 : (init ++ sec a).data <+:
          (xs.foldl (fun acc x => acc ++ sec x) (init ++ sec a)).data :=
        foldl_append_init_isPre sec xs (init ++ sec a)
      exact h1.trans (isInfix_of_isPre h2)
    · exact ih (init ++ sec x) a h

theorem detailSection_isInfix_report {analyses : List ReviewResult}
    {a : ReviewResult} (ha : a ∈ analyses) :
    (detailSection a).data <:+: (reportDoc analyses).data := by
  have hne : analyses ≠ [] := by
    intro h
    rw [h] at ha
    exact absurd ha (List.not_mem_nil a)
  have h1 : (detailSection a).data <:+:
      (analyses.foldl (fun acc a => acc ++ detailSection a) "").data :=
    foldl_append_mem_isInfix detailSection analyses "" a ha
  have h2 : (analyses.foldl (fun acc a => acc ++ detailSection a) "").data <:+:
      (reportDoc analyses).data := by
    refine ⟨("## 🤖 AI Code Review Results (Gemini)\n\n**Analyzed "
        ++ toString analyses.length ++ " files**\n\n").data
        ++ (generate_overall_summary analyses ++ "---\n\n").data,
      attributionLine.data, ?_⟩
    unfold reportDoc
    rw [if_neg hne]
    simp [str_data_append, List.append_assoc]
  exact h1.trans h2

/-! ## Lemmas about `main` -/

theorem runMain_empty {env : Env} (h : get_changed_files env.gitResult = []) :
    runMain env = [Effect.writeOutput noChangedFilesDoc] := by
  simp [runMain, h]

theorem runMain_nonempty {env : Env} (h : get_changed_files env.gitResult ≠ []) :
    runMain env = ((get_changed_files env.gitResult).map (fileEffects env)).flatten
      ++ [Effect.mkdirOutput, Effect.writeOutput (reportDoc (mainAnalyses env))] := by
  simp [runMain, h]

theorem processFile_eq_some {env : Env} {fp : String}
    (h2 : env.fileExists fp = true) (h3 : env.readResult fp ≠ "") :
    processFile env fp =
      some (analyze_file_with_gemini fp (env.readResult fp) (env.netOutcome fp)) := by
  unfold processFile
  rw [if_pos h2, if_neg h3]

theorem mem_mainAnalyses_of {env : Env} {fp : String}
    (h1 : fp ∈ get_changed_files env.gitResult)
    (h2 : env.fileExists fp = true) (h3 : env.readResult fp ≠ "") :
    analyze_file_with_gemini fp (env.readResult fp) (env.netOutcome fp)
      ∈ mainAnalyses env :=
  List.mem_filterMap.mpr ⟨fp, h1, processFile_eq_some h2 h3⟩

theorem mem_mainAnalyses_severity {env : Env} {a : ReviewResult}
    (ha : a ∈ mainAnalyses env) : a.severity = "MEDIUM" := by
  obtain ⟨fp, _, hp⟩ := List.mem_filterMap.mp ha
  unfold processFile at hp
  by_cases h1 : env.fileExists fp = true
  · rw [if_pos h1] at hp
    by_cases h2 : env.readResult fp = ""
    · rw [if_pos h2] at hp
      cases hp
    · rw [if_neg h2] at hp
      injection hp with h
      rw [← h]
      rfl
  · rw [if_neg h1] at hp
    cases hp

theorem mem_mainAnalyses_file {env : Env} {a : ReviewResult}
    (ha : a ∈ mainAnalyses env) :
    ∃ fp, fp ∈ get_changed_files env.gitResult ∧ env.fileExists fp = true
      ∧ env.readResult fp ≠ ""
      ∧ a = analyze_file_with_gemini fp (env.readResult fp) (env.netOutcome fp) := by
  obtain ⟨fp, hmem, hp⟩ := List.mem_filterMap.mp ha
  unfold processFile at hp
  by_cases h1 : env.fileExists fp = true
  · rw [if_pos h1] at hp
    by_cases h2 : env.readResult fp = ""
    · rw [if_pos h2] at hp
      cases hp
    · rw [if_neg h2] at hp
      injection hp with h
      exact ⟨fp, hmem, h1, h2, h.symm⟩
  · rw [if_neg h1] at hp
    cases hp

theorem str_ext {s t : String} (h : s.data = t.data) : s = t := by
  cases s
  cases t
  exact congrArg String.mk h

theorem str_append_empty (s : String) : s ++ "" = s :=
  str_ext (by simp [str_data_append])

/-- Concatenation of a list of strings, used to state the amended bullet
rendering. -/
def strConcat : List String → String
  | [] => ""
  | s :: rest => s ++ strConcat rest

theorem foldl_bullets_eq (lines : List String) :
    ∀ init : String,
      lines.foldl (fun acc line => if pyStrip line = "" then acc
        else acc ++ "- " ++ pyStrip line ++ "\n") init
      = init ++ strConcat (lines.filterMap (fun line =>
          if pyStrip line = "" then none else some ("- " ++ pyStrip line ++ "\n"))) := by
  induction lines with
  | nil => intro init; rw [List.foldl_nil, List.filterMap_nil, strConcat, str_append_empty]
  | cons x xs ih =>
    intro init
    rw [List.foldl_cons, List.filterMap_cons]
    by_cases h : pyStrip x = ""
    · rw [if_pos h, if_pos h]
      exact ih init
    · rw [if_neg h, if_neg h]
      rw [ih]
      exact str_ext (by simp [str_data_append, strConcat, List.append_assoc])

/-- The amended per-file bullet rendering: among the first three lines of the
text, each non-blank line (stripped) becomes one bullet. -/
def bulletsAmended (text : String) : String :=
  strConcat (((pySplitLines text).take 3).filterMap (fun line =>
    if pyStrip line = "" then none else some ("- " ++ pyStrip line ++ "\n")))

theorem bulletLines_eq_amended (text : String) :
    bulletLines text = bulletsAmended text := by
  unfold bulletLines bulletsAmended
  rw [foldl_bullets_eq]
  exact str_ext (by simp [str_data_append])

theorem mainAnalyses_file_ne {env : Env} {fp : String}
    (h3 : env.readResult fp = "") {a : ReviewResult} (ha : a ∈ mainAnalyses env) :
    a.file ≠ fp := by
  obtain ⟨fp', hmem', hex, hrd, heq⟩ := mem_mainAnalyses_file ha
  intro hcontra
  rw [heq] at hcontra
  have hfp : fp' = fp := hcontra
  rw [hfp] at hrd
  exact hrd h3

theorem no_httpCall_of_blankRead {env : Env} {fp : String}
    (h3 : env.readResult fp = "") (pr : String) :
    Effect.httpCall fp pr ∉ runMain env := by
  intro hmem
  by_cases hc : get_changed_files env.gitResult = []
  · rw [runMain_empty hc] at hmem
    simp at hmem
  · rw [runMain_nonempty hc] at hmem
    rcases List.mem_append.mp hmem with h | h
    · obtain ⟨l, hl, hml⟩ := List.mem_flatten.mp h
      obtain ⟨fp', hfp', hfe⟩ := List.mem_map.mp hl
      rw [← hfe] at hml
      unfold fileEffects at hml
      by_cases hex : env.fileExists fp' = true
      · rw [if_pos hex] at hml
        by_cases hrd : env.readResult fp' = ""
        · rw [if_pos hrd] at hml
          simp at hml
        · rw [if_neg hrd] at hml
          simp at hml
          rcases hml with ⟨hfp, _⟩
          rw [hfp] at h3
          exact hrd h3
      · rw [if_neg hex] at hml
        simp at hml
    · simp at h

/-! ## Concrete example data -/

/-- Example per-file result whose analysis text contains `CRITICAL`. -/
def exHighResult : ReviewResult :=
  { file := "a.py", analysis := "Severity: CRITICAL problem", severity := "MEDIUM" }

/-- Example per-file result whose analysis text contains no severity keyword. -/
def exLowResult : ReviewResult :=
  { file := "b.py", analysis := "Looks fine", severity := "MEDIUM" }

/-! ## Claims -/

/-- C1: the summary's high-priority count equals the number of results whose
analysis text contains `"HIGH"` or `"CRITICAL"` case-insensitively; a file's
line gets the high icon exactly when its text contains one of those
substrings, the medium icon when it contains `"MEDIUM"` but neither, and the
low icon otherwise; and for one `CRITICAL` result and one keyword-free
result the count is `1` and the two icons differ. -/
theorem claim_C1 :
    (∀ s : String, hasHighOrCritical s = true ↔ SpecHigh s)
    ∧ (∀ analyses : List ReviewResult,
        highPriorityCount analyses
          = analyses.countP (fun a => hasHighOrCritical a.analysis))
    ∧ (∀ s : String,
        (severityIcon s = "🔴" ↔ SpecHigh s)
        ∧ (severityIcon s = "🟡" ↔ (¬ SpecHigh s ∧ SpecMedium s))
        ∧ (severityIcon s = "🟢" ↔ (¬ SpecHigh s ∧ ¬ SpecMedium s)))
    ∧ (highPriorityCount [exHighResult, exLowResult] = 1
        ∧ severityIcon exHighResult.analysis ≠ severityIcon exLowResult.analysis
        ∧ strContains (generate_overall_summary [exHighResult, exLowResult])
            "**High Priority Issues**: 1" = true) :=
  ⟨hasHighOrCritical_iff, fun _ => rfl, severityIcon_cases,
    by decide, by decide, by decide⟩

/-- C2: a non-200 response makes the review call return the literal
`API Error` string embedding the status code and body (no exception
escapes: the handler is a total function into `String`), the concrete
status-500/"oops" instance contains `"500"` and `"oops"`, and for an
analyzed file that string appears verbatim in the report right after that
file's heading. -/
theorem claim_C2 :
    (∀ r : GeminiHttpResponse, r.status_code ≠ 200 →
        call_gemini_api (NetOutcome.ok r)
          = "API Error: " ++ toString r.status_code ++ " - " ++ r.text)
    ∧ (strContains (call_gemini_api (NetOutcome.ok ⟨500, "oops", []⟩)) "500" = true
        ∧ strContains (call_gemini_api (NetOutcome.ok ⟨500, "oops", []⟩)) "oops" = true)
    ∧ (∀ (env : Env) (fp : String) (r : GeminiHttpResponse),
        fp ∈ get_changed_files env.gitResult →
        env.fileExists fp = true →
        env.readResult fp ≠ "" →
        env.netOutcome fp = NetOutcome.ok r →
        r.status_code ≠ 200 →
        ("## 📄 " ++ fp ++ "\n\n"
          ++ ("API Error: " ++ toString r.status_code ++ " - " ++ r.text)).data
          <:+: (reportDoc (mainAnalyses env)).data) := by
  refine ⟨?_, ⟨by decide, by decide⟩, ?_⟩
  · intro r h
    simp only [call_gemini_api]
    rw [if_neg h]
  · intro env fp r h1 h2 h3 h4 h5
    have ha := mem_mainAnalyses_of h1 h2 h3
    have hanal : call_gemini_api (env.netOutcome fp)
        = "API Error: " ++ toString r.status_code ++ " - " ++ r.text := by
      rw [h4]
      simp only [call_gemini_api]
      rw [if_neg h5]
    refine List.IsInfix.trans (isInfix_of_isPre ?_) (detailSection_isInfix_report ha)
    refine ⟨("\n\n---\n\n" : String).data, ?_⟩
    simp [detailSection, analyze_file_with_gemini, hanal, str_data_append,
      List.append_assoc]

/-- Environment used to witness C2: one changed file, readable, whose API
call returns HTTP 500 with body `oops`. -/
def envC2 : Env :=
  { gitResult := GitOutcome.ok "a.py"
    fileExists := fun _ => true
    readResult := fun _ => "print(1)"
    netOutcome := fun _ => NetOutcome.ok ⟨500, "oops", []⟩ }

theorem claim_C2_witness :
    call_gemini_api (NetOutcome.ok ⟨500, "oops", []⟩)
      = "API Error: " ++ toString (500 : Nat) ++ " - " ++ "oops"
    ∧ ("## 📄 " ++ "a.py" ++ "\n\n"
        ++ ("API Error: " ++ toString (500 : Nat) ++ " - " ++ "oops")).data
        <:+: (reportDoc (mainAnalyses envC2)).data :=
  ⟨claim_C2.1 ⟨500, "oops", []⟩ (by decide),
    claim_C2.2.2 envC2 "a.py" ⟨500, "oops", []⟩ (by decide) rfl (by decide) rfl
      (by decide)⟩

/-- C3: the prompt is exactly the fixed template around the file path and the
first `min 4000 |content|` characters of the content (a prefix of the
content), with the literal truncation marker leading the trailing template
text. -/
theorem claim_C3 (fp content : String) :
    buildPrompt fp content
      = promptPre ++ fp ++ promptMid ++ pySlice content 4000 ++ promptPost
    ∧ (pySlice content 4000).data <+: content.data
    ∧ (pySlice content 4000).length = min 4000 content.length
    ∧ ("... (truncated if longer)" : String).data <+: promptPost.data :=
  ⟨rfl, pySlice_isPre content 4000, pySlice_length content 4000, by decide⟩

/-- C4: filtering the parsed diff output keeps exactly the paths ending in an
allow-listed extension — the result is a sublist of the input (original
order, duplicates preserved), membership is membership-with-allowed-extension,
and each path's multiplicity is preserved when its extension is allowed and
zero otherwise. -/
theorem claim_C4 :
    (∀ out : String,
        get_changed_files (GitOutcome.ok out)
          = (((pySplitLines out).map pyStrip).filter (fun s => !(s == ""))).filter
              hasCodeExtension)
    ∧ (∀ files : List String,
        List.Sublist (files.filter hasCodeExtension) files
        ∧ (∀ f, f ∈ files.filter hasCodeExtension ↔ f ∈ files ∧ HasAllowedExt f)
        ∧ (∀ f, (files.filter hasCodeExtension).count f
            = if HasAllowedExt f then files.count f else 0)) := by
  refine ⟨fun out => rfl, fun files => ⟨List.filter_sublist files, ?_, ?_⟩⟩
  · intro f
    rw [List.mem_filter, hasCodeExtension_iff]
  · intro f
    by_cases h : HasAllowedExt f
    · rw [if_pos h]
      exact List.count_filter ((hasCodeExtension_iff f).mpr h)
    · rw [if_neg h]
      rw [List.count_eq_zero]
      intro hmem
      exact h ((hasCodeExtension_iff f).mp (List.mem_filter.mp hmem).2)

/-- C5: when change discovery yields no files, the run writes exactly the
fixed "no files changed" document and performs nothing else: no file read
and no HTTP call appears in the trace. -/
theorem claim_C5 (env : Env) (h : get_changed_files env.gitResult = []) :
    runMain env = [Effect.writeOutput noChangedFilesDoc]
    ∧ (∀ p, Effect.readFile p ∉ runMain env)
    ∧ (∀ p pr, Effect.httpCall p pr ∉ runMain env) := by
  refine ⟨runMain_empty h, ?_, ?_⟩
  · intro p
    rw [runMain_empty h]
    simp
  · intro p pr
    rw [runMain_empty h]
    simp

/-- Environment used to witness C5: git reports no changed files. -/
def envC5 : Env :=
  { gitResult := GitOutcome.ok ""
    fileExists := fun _ => false
    readResult := fun _ => ""
    netOutcome := fun _ => NetOutcome.exn "unreachable" }

theorem claim_C5_witness :
    runMain envC5 = [Effect.writeOutput noChangedFilesDoc]
    ∧ (∀ p, Effect.readFile p ∉ runMain envC5) :=
  ⟨(claim_C5 envC5 (by decide)).1, (claim_C5 envC5 (by decide)).2.1⟩

/-- The rendering the claim C6 describes: the first three NON-BLANK lines of
the text as bullets (the code instead takes the first three lines and keeps
the non-blank ones among them). -/
def bulletsClaimed (text : String) : String :=
  strConcat ((((pySplitLines text).filter (fun l => !(pyStrip l == ""))).take 3).map
    (fun line => "- " ++ pyStrip line ++ "\n"))

/-- Example result whose analysis text starts with two blank lines. -/
def exMultilineResult : ReviewResult :=
  { file := "f.py", analysis := "\n\nAlpha\nBeta\nGamma", severity := "MEDIUM" }

/-- C6 counterexample: for an analysis text beginning with two blank lines the
code renders a single bullet (`Alpha`), not the first three non-blank lines
(`Alpha`, `Beta`, `Gamma`) the claim describes. -/
theorem claim_C6_counterexample :
    fileSummaryBlock exMultilineResult = "**🟢 f.py**\n- Alpha\n\n"
    ∧ "**" ++ severityIcon exMultilineResult.analysis ++ " "
        ++ exMultilineResult.file ++ "**\n"
        ++ bulletsClaimed exMultilineResult.analysis ++ "\n"
      = "**🟢 f.py**\n- Alpha\n- Beta\n- Gamma\n\n"
    ∧ fileSummaryBlock exMultilineResult
      ≠ "**" ++ severityIcon exMultilineResult.analysis ++ " "
          ++ exMultilineResult.file ++ "**\n"
          ++ bulletsClaimed exMultilineResult.analysis ++ "\n" :=
  ⟨by decide, by decide, by decide⟩

/-- C6 (amended): each file's summary block is the labeled icon line followed
by bullet points for the non-blank lines among the FIRST THREE LINES of the
result text, each stripped. -/
theorem claim_C6 (a : ReviewResult) :
    fileSummaryBlock a
      = "**" ++ severityIcon a.analysis ++ " " ++ a.file ++ "**\n"
        ++ bulletsAmended a.analysis ++ "\n" := by
  unfold fileSummaryBlock
  rw [bulletLines_eq_amended]

/-- Environment whose git diff fails, so discovery yields zero files. -/
def envC7 : Env :=
  { gitResult := GitOutcome.err "fatal: bad revision"
    fileExists := fun _ => false
    readResult := fun _ => ""
    netOutcome := fun _ => NetOutcome.exn "unreachable" }

/-- C7 counterexample: in the zero-changed-files run the document is written
but no directory-creation effect occurs before (or after) the write. -/
theorem claim_C7_counterexample :
    Effect.writeOutput noChangedFilesDoc ∈ runMain envC7
    ∧ Effect.mkdirOutput ∉ runMain envC7 :=
  ⟨by decide, by decide⟩

/-- C7 (amended): the run creates the output parent directory immediately
before the write exactly when discovery yields at least one changed file;
the zero-changed-files run writes the fixed document with no directory
creation at all. -/
theorem claim_C7 (env : Env) :
    (get_changed_files env.gitResult ≠ [] →
      ∃ pre, runMain env
        = pre ++ [Effect.mkdirOutput,
            Effect.writeOutput (reportDoc (mainAnalyses env))])
    ∧ (get_changed_files env.gitResult = [] →
      runMain env = [Effect.writeOutput noChangedFilesDoc]
        ∧ Effect.mkdirOutput ∉ runMain env) := by
  constructor
  · intro h
    exact ⟨((get_changed_files env.gitResult).map (fileEffects env)).flatten,
      runMain_nonempty h⟩
  · intro h
    refine ⟨runMain_empty h, ?_⟩
    rw [runMain_empty h]
    simp

/-- Environment with one changed file (which turns out not to exist). -/
def envC7b : Env :=
  { gitResult := GitOutcome.ok "a.py"
    fileExists := fun _ => false
    readResult := fun _ => ""
    netOutcome := fun _ => NetOutcome.exn "unreachable" }

theorem claim_C7_witness :
    (∃ pre, runMain envC7b
      = pre ++ [Effect.mkdirOutput,
          Effect.writeOutput (reportDoc (mainAnalyses envC7b))])
    ∧ (runMain envC7 = [Effect.writeOutput noChangedFilesDoc]
        ∧ Effect.mkdirOutput ∉ runMain envC7) :=
  ⟨(claim_C7 envC7b).1 (by decide), (claim_C7 envC7).2 (by decide)⟩

/-- C8: every produced result's `severity` field is the constant `"MEDIUM"`;
in every run all accumulated results carry `"MEDIUM"`; and the field is
independent of the lexical icon scan: a result whose text drives the red
icon still carries severity `"MEDIUM"`. -/
theorem claim_C8 :
    (∀ (fp content : String) (net : NetOutcome),
        (analyze_file_with_gemini fp content net).severity = "MEDIUM")
    ∧ (∀ env : Env, (mainAnalyses env).all (fun a => a.severity == "MEDIUM") = true)
    ∧ ((analyze_file_with_gemini "a.py" "x"
          (NetOutcome.ok ⟨200, "", [⟨"Severity: CRITICAL"⟩]⟩)).severity = "MEDIUM"
        ∧ severityIcon (analyze_file_with_gemini "a.py" "x"
            (NetOutcome.ok ⟨200, "", [⟨"Severity: CRITICAL"⟩]⟩)).analysis = "🔴") := by
  refine ⟨fun _ _ _ => rfl, ?_, by decide, by decide⟩
  intro env
  rw [List.all_eq_true]
  intro a ha
  exact beq_iff_eq.mpr (mem_mainAnalyses_severity ha)

/-- C9: a 200 response with at least one candidate yields exactly the first
candidate's text; a 200 response with zero candidates yields the fixed
placeholder; concretely a single candidate `"X"` yields `"X"`. -/
theorem claim_C9 :
    (∀ (body : String) (c : Candidate) (rest : List Candidate),
        call_gemini_api (NetOutcome.ok ⟨200, body, c :: rest⟩) = c.text)
    ∧ (∀ body : String,
        call_gemini_api (NetOutcome.ok ⟨200, body, []⟩)
          = "No response generated from Gemini API")
    ∧ call_gemini_api (NetOutcome.ok ⟨200, "", [⟨"X"⟩]⟩) = "X" :=
  ⟨fun _ _ _ => rfl, fun _ => rfl, rfl⟩

/-- C10: a changed file that exists but whose read yields the empty string is
skipped exactly like an unreadable file: the loop body produces no result for
it, no HTTP call with its path appears in the trace, and no accumulated
result (hence no report section) carries its path. -/
theorem claim_C10 (env : Env) (fp : String)
    (hex : env.fileExists fp = true) (hread : env.readResult fp = "") :
    processFile env fp = none
    ∧ (∀ pr, Effect.httpCall fp pr ∉ runMain env)
    ∧ (∀ a ∈ mainAnalyses env, a.file ≠ fp) := by
  refine ⟨?_, fun pr => no_httpCall_of_blankRead hread pr,
    fun a ha => mainAnalyses_file_ne hread ha⟩
  unfold processFile
  rw [if_pos hex, if_pos hread]

/-- Environment with two changed files where `b.py` exists but reads as the
empty string. -/
def envC10 : Env :=
  { gitResult := GitOutcome.ok "a.py\nb.py"
    fileExists := fun _ => true
    readResult := fun p => if p = "a.py" then "print(1)" else ""
    netOutcome := fun _ => NetOutcome.ok ⟨200, "", [⟨"ok"⟩]⟩ }

theorem claim_C10_witness :
    processFile envC10 "b.py" = none
    ∧ (∀ pr, Effect.httpCall "b.py" pr ∉ runMain envC10) :=
  ⟨(claim_C10 envC10 "b.py" rfl (by decide)).1,
    (claim_C10 envC10 "b.py" rfl (by decide)).2.1⟩

end GeminiReview
